/-
  Verification of the mcp-ssh session layer against its specification.

  Shallow embedding of:
    - pkg/ssh/executor.go : the shell executor (command framing, delimiter
      parsing, dual-stream reads, initialization and teardown),
    - pkg/ssh/manager.go  : the connection manager (registry, capacity and
      duplicate-id checks, host allowlist validation),
    - pkg/mcp/handlers.go : request-level validation helpers.

  External effects (SSH dial, file reads, pipe creation) are modelled as
  explicit outcome parameters; machine integers are modelled as Nat/Int
  (no value in the program approaches an overflow boundary).
-/
import Mathlib

namespace McpSsh

/-! ## Constants (pkg/ssh/executor.go, pkg/ssh/manager.go) -/

/-- MaxConnections from manager.go: maximum number of concurrent connections. -/
def MaxConnections : Nat := 100

/-- maxCommandSize from executor.go: 1 MiB cap on command length. -/
def maxCommandSize : Nat := 1 * 1024 * 1024

/-- maxOutputSize from executor.go: declared 10 MiB output cap. -/
def maxOutputSize : Nat := 10 * 1024 * 1024

/-! ## Small Go string primitives -/

/-- Model of Go strings.Contains(s, sub): sub occurs as a contiguous
substring of s. -/
def goContains (s sub : String) : Bool :=
  decide (sub.data <:+: s.data)

/-- Splitting a character list around every occurrence of a separator
character; the result always has one more group than there are
separators. -/
def goSplitList (sep : Char) : List Char → List (List Char)
  | [] => [[]]
  | c :: rest =>
    if c = sep then [] :: goSplitList sep rest
    else
      match goSplitList sep rest with
      | [] => [[c]]
      | g :: gs => (c :: g) :: gs

/-- Model of Go strings.Split(s, sep) for the single-character
separators the program uses (":" and ","). -/
def goSplit (s : String) (sep : Char) : List String :=
  (goSplitList sep s.data).map String.mk

/-- Model of Go strings.TrimSpace: drop leading and trailing whitespace
(the program only ever meets ASCII whitespace here). -/
def goTrim (s : String) : String :=
  String.mk
    (((s.data.dropWhile Char.isWhitespace).reverse.dropWhile
        Char.isWhitespace).reverse)

/-- Leading decimal digits of a character list, folded into an accumulator.
Returns none when no digit has been consumed. Stops at the first
non-digit. -/
def scanDigits : List Char → Option Nat → Option Nat
  | c :: rest, acc =>
    if c.isDigit then scanDigits rest (some ((acc.getD 0) * 10 + (c.toNat - 48)))
    else acc
  | [], acc => acc

/-- Model of Go fmt.Sscanf(s, "%d", &x): an optional sign followed by at
least one decimal digit; trailing characters are ignored; returns none
when nothing was parsed (in which case the Go target variable keeps its
previous value). -/
def goSscanfInt (s : String) : Option Int :=
  match s.data with
  | '-' :: rest => (scanDigits rest none).map (fun n => -(n : Int))
  | '+' :: rest => (scanDigits rest none).map (fun n => (n : Int))
  | l => (scanDigits l none).map (fun n => (n : Int))

/-! ## CommandResult and delimiter-line parsing (executor.go) -/

/-- CommandResult from executor.go. -/
structure CommandResult where
  Stdout : String
  Stderr : String
  ExitCode : Int
deriving DecidableEq, Repr

/-- The exit-code extraction performed on a delimiter line in
readUntilDelimiter: split on a colon; when exactly two parts result,
Sscanf the trimmed second part as a decimal integer into the exit-code
variable (which stays 0 when the scan fails); any other part count
leaves the exit code at 0. -/
def parseDelimLine (line : String) : Int :=
  match goSplit line ':' with
  | [_, p1] => (goSscanfInt (goTrim p1)).getD 0
  | _ => 0

/-- How the primary stream ends after its listed complete lines:
either end-of-stream (with any leftover partial data bufio returns
together with io.EOF) or a read failure. -/
inductive StreamEnd where
  | eof (leftover : String)
  | fail (msg : String)
deriving DecidableEq, Repr

/-- The loop of readUntilDelimiter with its output accumulator made
explicit. Each element of the list is one successful ReadString result
(a line including its newline); afterwards the stream ends as described
by the StreamEnd. On io.EOF the accumulated output is returned with the
current exit code (still 0, since a delimiter hit returns immediately)
and the leftover partial data is dropped; a delimiter-bearing line
returns the output accumulated so far and the parsed exit code. -/
def readLoop (delimiter : String) (acc : String) :
    List String → StreamEnd → Except String (String × Int)
  | [], .eof _ => .ok (acc, 0)
  | [], .fail msg => .error msg
  | line :: rest, ending =>
    if goContains line delimiter then .ok (acc, parseDelimLine line)
    else readLoop delimiter (acc ++ line) rest ending

/-- readUntilDelimiter from executor.go, over the stream model. -/
def readUntilDelimiter (delimiter : String) (lines : List String)
    (ending : StreamEnd) : Except String (String × Int) :=
  readLoop delimiter "" lines ending

/-! ## ShellExecutor.Execute (executor.go) -/

/-- Errors Execute can return, one constructor per fmt.Errorf site. -/
inductive ExecErr where
  | invalidCommand
  | writeFailed
  | readError (msg : String)
  | timeout
deriving DecidableEq, Repr

/-- The outside world of one Execute call: the UnixNano timestamp used to
build the delimiter, the outcome of the stdin write, the primary-stream
content, the result of the opportunistic polled stderr read (its
real-time poll loop abstracted to its accumulated outcome), and whether
the 30s overall timeout fired before both readers reported. -/
structure ExecuteEnv where
  nano : Nat
  writeOk : Bool
  stdoutLines : List String
  stdoutEnd : StreamEnd
  stderrResult : Except String String
  timedOut : Bool

/-- One Execute call's observable outcome: the payloads written to the
channel's input side (in order), and the returned result. -/
structure ExecuteOutcome where
  writes : List String
  result : Except ExecErr CommandResult
deriving Repr

/-- ShellExecutor.Execute from executor.go: build the per-call delimiter
from the timestamp, reject any command containing the fixed delimiter
pattern before anything touches the channel, otherwise write the
command plus the echo of the delimiter and exit status, then join the
two stream readers (a reader failure or the overall timeout fails the
call), and return the whitespace-trimmed outputs with the parsed exit
code. The racy select between the two error sources and the timeout is
resolved here in program order; no claim depends on which of several
simultaneous failures wins. -/
def ShellExecutor.Execute (env : ExecuteEnv) (command : String) :
    ExecuteOutcome :=
  let delimiter := "__MCP_SSH_END_" ++ toString env.nano ++ "__"
  if goContains command "__MCP_SSH_END_" then
    { writes := [], result := .error .invalidCommand }
  else
    let fullCommand := command ++ "\n" ++ "echo \"" ++ delimiter ++ ":$?\"" ++ "\n"
    if env.writeOk = false then
      { writes := [fullCommand], result := .error .writeFailed }
    else
      match readUntilDelimiter delimiter env.stdoutLines env.stdoutEnd,
            env.stderrResult with
      | .error e, _ =>
        { writes := [fullCommand], result := .error (.readError e) }
      | .ok _, .error e =>
        { writes := [fullCommand], result := .error (.readError e) }
      | .ok (out, code), .ok errOut =>
        if env.timedOut then
          { writes := [fullCommand], result := .error .timeout }
        else
          { writes := [fullCommand],
            result := .ok { Stdout := goTrim out, Stderr := goTrim errOut,
                            ExitCode := code } }

/-! ## NewShellExecutor (executor.go) -/

/-- Outcomes of the external calls NewShellExecutor makes, in program
order: client.NewSession, session.StdinPipe, session.StdoutPipe,
session.StderrPipe, session.Shell, and the write of the shell
initialization directives. -/
structure InitEnv where
  newSession : Except String Unit
  stdinPipe : Except String Unit
  stdoutPipe : Except String Unit
  stderrPipe : Except String Unit
  shellStart : Except String Unit
  initWrite : Except String Unit

/-- Observable outcome of NewShellExecutor, mirroring the Go signature
(*ShellExecutor, error) as a pair of options, plus whether
session.Close was invoked on the freshly created session. -/
structure InitOutcome where
  executor : Option Unit
  errMsg : Option String
  sessionClosed : Bool
deriving DecidableEq, Repr

/-- NewShellExecutor from executor.go: create a session, obtain the three
pipes, start the shell, drain startup output, write the echo-disabling
initialization directives, drain again. Every failure after session
creation closes the session (best effort) and returns (nil, error);
success returns the executor with the session left open. The two fixed
settle sleeps and the buffered drains have no failure modes and are
not observable in this model. -/
def NewShellExecutor (env : InitEnv) : InitOutcome :=
  match env.newSession with
  | .error e =>
    { executor := none, errMsg := some ("failed to create session: " ++ e),
      sessionClosed := false }
  | .ok () =>
    match env.stdinPipe with
    | .error e =>
      { executor := none, errMsg := some ("failed to get stdin pipe: " ++ e),
        sessionClosed := true }
    | .ok () =>
      match env.stdoutPipe with
      | .error e =>
        { executor := none, errMsg := some ("failed to get stdout pipe: " ++ e),
          sessionClosed := true }
      | .ok () =>
        match env.stderrPipe with
        | .error e =>
          { executor := none, errMsg := some ("failed to get stderr pipe: " ++ e),
            sessionClosed := true }
        | .ok () =>
          match env.shellStart with
          | .error e =>
            { executor := none, errMsg := some ("failed to start shell: " ++ e),
              sessionClosed := true }
          | .ok () =>
            match env.initWrite with
            | .error e =>
              { executor := none,
                errMsg := some ("failed to initialize shell: " ++ e),
                sessionClosed := true }
            | .ok () =>
              { executor := some (), errMsg := none, sessionClosed := false }

/-! ## Host allowlist (manager.go: NewHostValidator, Validate)

The repository delegates glob compilation and matching to the external
gobwas/glob library; it is kept abstract here as a GlobLib: a compile
function that may fail and a pure match function on compiled patterns.
All validator theorems are proved for every such library. -/

/-- An abstract glob library: compilation of a pattern string (which may
fail, as gobwas/glob.Compile does on malformed patterns) and matching
of a compiled pattern against a string. -/
structure GlobLib (P : Type) where
  compile : String → Except String P
  matchPat : P → String → Bool

/-- HostValidator from manager.go: the list of compiled patterns, in the
order their segments appeared in the comma-separated specification. -/
structure HostValidator (P : Type) where
  patterns : List P

/-- The loop body of NewHostValidator: trim each comma-split segment,
skip segments that trim to empty, compile the rest in order, failing on
the first segment that does not compile. -/
def compileHosts {P : Type} (lib : GlobLib P) :
    List String → Except String (List P)
  | [] => .ok []
  | h :: rest =>
    let t := goTrim h
    if t = "" then compileHosts lib rest
    else
      match lib.compile t with
      | .error e => .error ("invalid host pattern: " ++ e)
      | .ok p => (compileHosts lib rest).map (fun ps => p :: ps)

/-- NewHostValidator from manager.go: reject an empty specification,
split on commas, compile the surviving trimmed segments, and reject a
specification from which no pattern survives. -/
def NewHostValidator {P : Type} (lib : GlobLib P) (allowedHosts : String) :
    Except String (HostValidator P) :=
  if allowedHosts = "" then .error "no allowed hosts specified"
  else
    match compileHosts lib (goSplit allowedHosts ',') with
    | .error e => .error e
    | .ok patterns =>
      if patterns.isEmpty then .error "no valid host patterns provided"
      else .ok { patterns := patterns }

/-- The loop of HostValidator.Validate: return ok on the first pattern
that matches, the denial error when none does. -/
def validateLoop {P : Type} (lib : GlobLib P) (host : String) :
    List P → Except String Unit
  | [] => .error ("host " ++ host ++ " is not in the allowed hosts list")
  | p :: rest =>
    if lib.matchPat p host then .ok () else validateLoop lib host rest

/-- HostValidator.Validate from manager.go: an empty host is always
rejected; otherwise the host is checked against each compiled pattern
in order. -/
def HostValidator.Validate {P : Type} (lib : GlobLib P)
    (v : HostValidator P) (host : String) : Except String Unit :=
  if host = "" then .error "host cannot be empty"
  else validateLoop lib host v.patterns

/-! ## Connection manager (manager.go) -/

/-- ConnectionInfo from manager.go; Created is an abstract timestamp. -/
structure ConnectionInfo where
  ID : String
  Host : String
  Port : Int
  Username : String
  Created : Nat
deriving DecidableEq, Repr

/-- Connection from manager.go. The stored executor and client are
abstracted to the outcomes their Close calls would report, which is all
the manager ever observes of them (and discards). -/
structure Connection where
  Info : ConnectionInfo
  executorCloseOk : Bool
  clientCloseOk : Bool
deriving DecidableEq, Repr

/-- Manager from manager.go: the registry, modelled as an association
list from connection id to Connection (the Go map's keys are unique;
every operation below preserves that), together with the host
validator. The sync.RWMutex serializes the operations modelled here as
atomic steps. -/
structure Manager (P : Type) where
  connections : List (String × Connection)
  validator : HostValidator P

/-- NewManager from manager.go. -/
def NewManager {P : Type} (v : HostValidator P) : Manager P :=
  { connections := [], validator := v }

/-- Registry lookup, modelling the Go map index on connection id. -/
def Manager.lookup {P : Type} (m : Manager P) (id : String) :
    Option Connection :=
  (m.connections.find? (fun e => e.1 == id)).map (fun e => e.2)

/-- Errors Manager.Connect can return, one constructor per return site. -/
inductive ConnectErr where
  | limitReached
  | duplicateId
  | hostDenied (msg : String)
  | keyReadFailed
  | keyParseFailed
  | noAuth
  | dialFailed
  | executorFailed
deriving DecidableEq, Repr

/-- The outside world of one Manager.Connect call: the outcome of
os.ReadFile on the private-key path, of ssh.ParsePrivateKey, of
ssh.Dial (whose ok value carries what the resulting client's Close
would report), of NewShellExecutor (likewise for the executor), and
the current time. -/
structure ConnectEnv where
  readKeyFile : String → Except String String
  parsePrivateKey : String → Except String Unit
  dial : Except String Bool
  newExecutor : Except String Bool
  now : Nat

/-- One Connect call's observable outcome: the resulting manager state
or error, and whether ssh.Dial was reached. -/
structure ConnectOutcome (P : Type) where
  result : Except ConnectErr (Manager P)
  dialAttempted : Bool

/-- The authentication-method accumulation of Manager.Connect: config.Auth
starts empty; a non-empty password appends one method; a non-empty
private-key path reads and parses the key file (either step failing
aborts Connect) and appends one method. Returns the number of
configured methods. -/
def buildAuth (env : ConnectEnv) (password privateKeyPath : String) :
    Except ConnectErr Nat :=
  let base : Nat := if password ≠ "" then 1 else 0
  if privateKeyPath ≠ "" then
    match env.readKeyFile privateKeyPath with
    | .error _ => .error .keyReadFailed
    | .ok keyData =>
      match env.parsePrivateKey keyData with
      | .error _ => .error .keyParseFailed
      | .ok () => .ok (base + 1)
  else .ok base

/-- Manager.Connect from manager.go, in program order: the capacity
check, the duplicate-id check, host validation, authentication-method
construction, the no-auth check, the dial, executor creation (a failure
of which closes the client, best effort), and finally registration. -/
def Manager.Connect {P : Type} (lib : GlobLib P) (m : Manager P)
    (env : ConnectEnv) (id host : String) (port : Int)
    (username password privateKeyPath : String) : ConnectOutcome P :=
  if m.connections.length ≥ MaxConnections then
    { result := .error .limitReached, dialAttempted := false }
  else if (m.connections.find? (fun e => e.1 == id)).isSome then
    { result := .error .duplicateId, dialAttempted := false }
  else
    match m.validator.Validate lib host with
    | .error msg => { result := .error (.hostDenied msg), dialAttempted := false }
    | .ok () =>
      match buildAuth env password privateKeyPath with
      | .error e => { result := .error e, dialAttempted := false }
      | .ok n =>
        if n = 0 then { result := .error .noAuth, dialAttempted := false }
        else
          match env.dial with
          | .error _ => { result := .error .dialFailed, dialAttempted := true }
          | .ok clientCloseOk =>
            match env.newExecutor with
            | .error _ =>
              { result := .error .executorFailed, dialAttempted := true }
            | .ok executorCloseOk =>
              { result := .ok { m with connections := m.connections ++
                  [(id, { Info := { ID := id, Host := host, Port := port,
                                    Username := username, Created := env.now },
                          executorCloseOk := executorCloseOk,
                          clientCloseOk := clientCloseOk })] },
                dialAttempted := true }

/-- Manager.Close from manager.go: an unknown id is an error; a known id
has its executor and client closed (both outcomes discarded) and its
entry removed, and Close returns success. -/
def Manager.Close {P : Type} (m : Manager P) (id : String) :
    Except String (Manager P) :=
  match m.connections.find? (fun e => e.1 == id) with
  | none => .error ("connection " ++ id ++ " not found")
  | some _ =>
    .ok { m with connections := m.connections.filter (fun e => e.1 != id) }

/-- Manager.List from manager.go: a by-value snapshot of the records. -/
def Manager.List {P : Type} (m : Manager P) : List ConnectionInfo :=
  m.connections.map (fun e => e.2.Info)

/-- Manager.CloseAll from manager.go: every entry is torn down (outcomes
discarded) and removed. -/
def Manager.CloseAll {P : Type} (m : Manager P) : Manager P :=
  { m with connections := [] }

/-! ## Pool operations and reachability -/

/-- One externally invokable manager operation. Execute and List only
read the registry. -/
inductive PoolOp where
  | connect (env : ConnectEnv) (id host : String) (port : Int)
      (username password privateKeyPath : String)
  | close (id : String)
  | closeAll
  | execute (id : String) (command : String)
  | list

/-- The registry-level effect of one operation: a failed Connect or
Close leaves the registry as it was. -/
def stepPool {P : Type} (lib : GlobLib P) (m : Manager P) :
    PoolOp → Manager P
  | .connect env id host port u pw kp =>
    match (m.Connect lib env id host port u pw kp).result with
    | .ok m2 => m2
    | .error _ => m
  | .close id =>
    match m.Close id with
    | .ok m2 => m2
    | .error _ => m
  | .closeAll => m.CloseAll
  | .execute _ _ => m
  | .list => m

/-- A manager state reached from a fresh manager by a list of
operations. -/
def runPool {P : Type} (lib : GlobLib P) (v : HostValidator P)
    (ops : List PoolOp) : Manager P :=
  ops.foldl (stepPool lib) (NewManager v)

/-! ## Request-level validation (handlers.go) -/

/-- validateAuthMethod from handlers.go: only the absence of both
credentials is rejected. -/
def validateAuthMethod (password privateKeyPath : String) :
    Except String Unit :=
  if password = "" ∧ privateKeyPath = "" then
    .error "either password or private_key_path must be provided"
  else .ok ()

/-! ## Lemmas about the read loop -/

/-- When no line carries the delimiter and the stream then hits io.EOF,
the loop returns every complete line folded onto the accumulator, with
exit code 0, and no error; any leftover partial data is dropped. -/
theorem readLoop_eof (delimiter : String) (lines : List String)
    (leftover : String) (acc : String)
    (h : ∀ l ∈ lines, goContains l delimiter = false) :
    readLoop delimiter acc lines (.eof leftover) =
      .ok (lines.foldl (fun a b => a ++ b) acc, 0) := by
  induction lines generalizing acc with
  | nil => rfl
  | cons l rest ih =>
    have hl : goContains l delimiter = false := h l (List.mem_cons_self _ _)
    have hrest : ∀ x ∈ rest, goContains x delimiter = false :=
      fun x hx => h x (List.mem_cons_of_mem _ hx)
    simp only [readLoop, hl, Bool.false_eq_true, if_false, List.foldl_cons]
    exact ih _ hrest

/-- When the stream's first delimiter-bearing line is reached, the loop
returns the lines accumulated before it and that line's parsed exit
code, regardless of what follows. -/
theorem readLoop_delim_hit (delimiter : String) (pre : List String)
    (line : String) (post : List String) (ending : StreamEnd) (acc : String)
    (hpre : ∀ l ∈ pre, goContains l delimiter = false)
    (hline : goContains line delimiter = true) :
    readLoop delimiter acc (pre ++ line :: post) ending =
      .ok (pre.foldl (fun a b => a ++ b) acc, parseDelimLine line) := by
  induction pre generalizing acc with
  | nil => simp [readLoop, hline]
  | cons l rest ih =>
    have hl : goContains l delimiter = false := hpre l (List.mem_cons_self _ _)
    have hrest : ∀ x ∈ rest, goContains x delimiter = false :=
      fun x hx => hpre x (List.mem_cons_of_mem _ hx)
    simp only [List.cons_append, readLoop, hl, Bool.false_eq_true, if_false,
      List.foldl_cons]
    exact ih _ hrest

/-- A delimiter line splitting into exactly two colon-separated parts has
its exit code read from the trimmed second (trailing) part by the
Sscanf model, keeping 0 when the scan yields nothing. -/
theorem parseDelimLine_two_parts (line head tail : String)
    (h : goSplit line ':' = [head, tail]) :
    parseDelimLine line = (goSscanfInt (goTrim tail)).getD 0 := by
  unfold parseDelimLine
  rw [h]

/-- A delimiter line not splitting into exactly two parts keeps exit
code 0. -/
theorem parseDelimLine_other (line : String)
    (h : (goSplit line ':').length ≠ 2) :
    parseDelimLine line = 0 := by
  unfold parseDelimLine
  rcases hs : goSplit line ':' with _ | ⟨a, _ | ⟨b, _ | ⟨c, tl⟩⟩⟩ <;>
    simp_all

/-! ## C2: exit-code extraction from the delimiter line -/

/-- C2. For a primary stream whose first sentinel-bearing line is
reached, the returned exit code is exactly the code's colon-split
parse of that line: with exactly two colon-separated fields it is the
integer scanned from the trimmed trailing field; a failed scan or any
other field count yields 0. The read succeeds and returns the output
accumulated before the sentinel line. -/
theorem readUntilDelimiter_exit_code (delimiter : String) (pre : List String)
    (line : String) (post : List String) (ending : StreamEnd)
    (hpre : ∀ l ∈ pre, goContains l delimiter = false)
    (hline : goContains line delimiter = true) :
    readUntilDelimiter delimiter (pre ++ line :: post) ending =
      .ok (pre.foldl (fun a b => a ++ b) "", parseDelimLine line)
    ∧ (∀ head tail, goSplit line ':' = [head, tail] →
        parseDelimLine line = (goSscanfInt (goTrim tail)).getD 0)
    ∧ ((goSplit line ':').length ≠ 2 → parseDelimLine line = 0)
    ∧ (∀ head tail, goSplit line ':' = [head, tail] →
        goSscanfInt (goTrim tail) = none → parseDelimLine line = 0) := by
  refine ⟨readLoop_delim_hit delimiter pre line post ending "" hpre hline,
    fun head tail h => parseDelimLine_two_parts line head tail h,
    fun h => parseDelimLine_other line h,
    fun head tail h hn => ?_⟩
  rw [parseDelimLine_two_parts line head tail h, hn]
  rfl

/-- C2 witness: a concrete stream where the sentinel line is
"__MCP_SSH_END_7__:3" and one where the trailing field is unparsable. -/
theorem readUntilDelimiter_exit_code_witness :
    readUntilDelimiter "__MCP_SSH_END_7__" ["out\n", "__MCP_SSH_END_7__:3\n"]
        (.eof "") =
      .ok (["out\n"].foldl (fun a b => a ++ b) "",
           parseDelimLine "__MCP_SSH_END_7__:3\n")
    ∧ parseDelimLine "__MCP_SSH_END_7__:3\n" =
        (goSscanfInt (goTrim "3\n")).getD 0
    ∧ parseDelimLine "__MCP_SSH_END_7__:x\n" = 0 := by
  have h1 := readUntilDelimiter_exit_code "__MCP_SSH_END_7__" ["out\n"]
    "__MCP_SSH_END_7__:3\n" [] (.eof "") (by decide) (by decide)
  have h2 := readUntilDelimiter_exit_code "__MCP_SSH_END_7__" []
    "__MCP_SSH_END_7__:x\n" [] (.eof "") (by decide) (by decide)
  exact ⟨h1.1, h1.2.1 "__MCP_SSH_END_7__" "3\n" (by decide),
    h2.2.2.2 "__MCP_SSH_END_7__" "x\n" (by decide) (by decide)⟩

/-! ## C5: clean end-of-stream before the sentinel -/

/-- C5. A primary stream that reaches end-of-stream before any line
contains the sentinel completes without error, returning the
accumulated complete lines with exit code 0. -/
theorem readUntilDelimiter_eof_clean (delimiter : String)
    (lines : List String) (leftover : String)
    (h : ∀ l ∈ lines, goContains l delimiter = false) :
    readUntilDelimiter delimiter lines (.eof leftover) =
      .ok (lines.foldl (fun a b => a ++ b) "", 0) :=
  readLoop_eof delimiter lines leftover "" h

/-- C5 witness: a concrete sentinel-free stream ending in EOF. -/
theorem readUntilDelimiter_eof_clean_witness :
    readUntilDelimiter "__MCP_SSH_END_1__" ["hello\n", "world\n"]
        (.eof "tail") =
      .ok (["hello\n", "world\n"].foldl (fun a b => a ++ b) "", 0) :=
  readUntilDelimiter_eof_clean "__MCP_SSH_END_1__" ["hello\n", "world\n"]
    "tail" (by decide)

/-! ## C7: the declared output cap is never enforced -/

/-- A single stdout line one byte past the declared 10 MiB cap. -/
def oversizedLine : String := String.mk (List.replicate (maxOutputSize + 1) 'a')

/-- A string of repeated letters cannot contain a substring that has an
underscore in it. -/
theorem goContains_replicate_a (n : Nat) (sub : String)
    (h : '_' ∈ sub.data) :
    goContains (String.mk (List.replicate n 'a')) sub = false := by
  unfold goContains
  rw [decide_eq_false_iff_not]
  intro hinf
  have hmem : '_' ∈ List.replicate n 'a' := hinf.subset h
  have : '_' = 'a' := List.eq_of_mem_replicate hmem
  exact absurd this (by decide)

/-- C7. The code declares maxOutputSize but readUntilDelimiter never
consults it: a delimiter-free stream whose single line is one byte past
the cap is returned in full, so the accumulated output exceeds the
declared cap instead of being truncated or failing. -/
theorem output_cap_not_enforced :
    readUntilDelimiter "__MCP_SSH_END_0__" [oversizedLine] (.eof "") =
      .ok (oversizedLine, 0)
    ∧ oversizedLine.length > maxOutputSize := by
  constructor
  · have hfree : goContains oversizedLine "__MCP_SSH_END_0__" = false :=
      goContains_replicate_a (maxOutputSize + 1) "__MCP_SSH_END_0__"
        (by decide)
    show readLoop "__MCP_SSH_END_0__" "" [oversizedLine] (.eof "") = _
    simp only [readLoop, hfree, Bool.false_eq_true, if_false]
    rfl
  · show (List.replicate (maxOutputSize + 1) 'a').length > maxOutputSize
    rw [List.length_replicate]
    exact Nat.lt_succ_self maxOutputSize

/-! ## C3: the injection guard fires before any channel write -/

/-- C3. Any command containing the fixed delimiter pattern is rejected
with the invalid-command error and the channel input side sees zero
writes, for every environment. -/
theorem execute_rejects_delimiter_command (env : ExecuteEnv)
    (command : String)
    (h : goContains command "__MCP_SSH_END_" = true) :
    ShellExecutor.Execute env command =
      { writes := [], result := .error .invalidCommand } := by
  unfold ShellExecutor.Execute
  simp [h]

/-- C3 witness: a concrete forged-delimiter command under a concrete
environment. -/
theorem execute_rejects_delimiter_command_witness :
    ShellExecutor.Execute
        { nano := 42, writeOk := true, stdoutLines := ["x\n"],
          stdoutEnd := .eof "", stderrResult := .ok "", timedOut := false }
        "echo __MCP_SSH_END_99__:0" =
      { writes := [], result := .error .invalidCommand } :=
  execute_rejects_delimiter_command _ "echo __MCP_SSH_END_99__:0" (by decide)

/-! ## C10: initialization failure paths close the fresh session -/

/-- C10. NewShellExecutor never returns an executor together with an
error; when it returns no error it returns the executor; and on every
failure path after session creation the fresh session has been
closed. -/
theorem newShellExecutor_cleanup (env : InitEnv) :
    ((NewShellExecutor env).errMsg.isSome = true →
      (NewShellExecutor env).executor = none)
    ∧ ((NewShellExecutor env).errMsg = none →
      (NewShellExecutor env).executor = some ())
    ∧ (env.newSession = .ok () →
      (NewShellExecutor env).errMsg.isSome = true →
      (NewShellExecutor env).sessionClosed = true) := by
  obtain ⟨ns, si, so, se, sh, iw⟩ := env
  cases ns <;> cases si <;> cases so <;> cases se <;> cases sh <;> cases iw <;>
    simp [NewShellExecutor]

/-- C10 witness: a concrete run where the stdin pipe fails after session
creation. -/
theorem newShellExecutor_cleanup_witness :
    (NewShellExecutor
        { newSession := .ok (), stdinPipe := .error "broken",
          stdoutPipe := .ok (), stderrPipe := .ok (),
          shellStart := .ok (), initWrite := .ok () }).executor = none
    ∧ (NewShellExecutor
        { newSession := .ok (), stdinPipe := .error "broken",
          stdoutPipe := .ok (), stderrPipe := .ok (),
          shellStart := .ok (), initWrite := .ok () }).sessionClosed = true :=
  ⟨(newShellExecutor_cleanup _).1 rfl,
   (newShellExecutor_cleanup _).2.2 rfl rfl⟩

/-! ## Concrete demonstration material shared by the manager claims -/

/-- A trivial glob library over Unit patterns: everything compiles,
everything matches. -/
def unitLib : GlobLib Unit :=
  { compile := fun _ => .ok (), matchPat := fun _ _ => true }

/-- A validator holding one compiled pattern of the trivial library. -/
def unitValidator : HostValidator Unit := { patterns := [()] }

/-- A stored connection whose executor and client both fail to close. -/
def demoConn : Connection :=
  { Info := { ID := "a", Host := "h", Port := 22, Username := "u",
              Created := 0 },
    executorCloseOk := false, clientCloseOk := false }

/-- A one-entry manager whose stored connection tears down with
failures. -/
def demoManager : Manager Unit :=
  { connections := [("a", demoConn)], validator := unitValidator }

/-- A registry entry for building a manager at capacity. -/
def connEntry (i : Nat) : String × Connection :=
  ("conn" ++ toString i,
   { Info := { ID := "conn" ++ toString i, Host := "h", Port := 22,
               Username := "u", Created := 0 },
     executorCloseOk := true, clientCloseOk := true })

/-- A manager whose registry holds exactly MaxConnections entries. -/
def fullManager : Manager Unit :=
  { connections := (List.range MaxConnections).map connEntry,
    validator := unitValidator }

/-- A cooperative environment: key file reads and parses, dial and
executor creation succeed. -/
def demoEnv : ConnectEnv :=
  { readKeyFile := fun _ => .ok "keydata",
    parsePrivateKey := fun _ => .ok (),
    dial := .ok true, newExecutor := .ok true, now := 0 }

/-! ## Helper lemmas about Manager.Connect -/

/-- At or above the connection limit, Connect fails immediately with the
limit error and never dials. -/
theorem connect_limit {P : Type} (lib : GlobLib P) (m : Manager P)
    (env : ConnectEnv) (id host : String) (port : Int)
    (username password privateKeyPath : String)
    (hc : m.connections.length ≥ MaxConnections) :
    m.Connect lib env id host port username password privateKeyPath =
      { result := .error .limitReached, dialAttempted := false } := by
  unfold Manager.Connect
  rw [if_pos hc]

/-- Below the limit, a registered id makes Connect fail with the
duplicate-id error, before dialing. -/
theorem connect_dup {P : Type} (lib : GlobLib P) (m : Manager P)
    (env : ConnectEnv) (id host : String) (port : Int)
    (username password privateKeyPath : String)
    (hc : ¬ m.connections.length ≥ MaxConnections)
    (hdup : (m.connections.find? (fun e => e.1 == id)).isSome = true) :
    m.Connect lib env id host port username password privateKeyPath =
      { result := .error .duplicateId, dialAttempted := false } := by
  unfold Manager.Connect
  rw [if_neg hc, if_pos hdup]

/-- A Connect call whose result is an error leaves the registry exactly
as it was. -/
theorem stepPool_connect_error {P : Type} (lib : GlobLib P) (m : Manager P)
    (env : ConnectEnv) (id host : String) (port : Int)
    (username password privateKeyPath : String) (e : ConnectErr)
    (h : (m.Connect lib env id host port username password
            privateKeyPath).result = .error e) :
    stepPool lib m (.connect env id host port username password
      privateKeyPath) = m := by
  simp only [stepPool]
  rw [h]

/-! ## C1: duplicate-id rejection, corrected for the at-capacity case -/

/-- C1 counterexample: at capacity, an open whose id is already
registered is rejected by the capacity check, which runs first, so the
error is the limit error and not the duplicate-id error. -/
theorem connect_duplicate_at_capacity_cex :
    (fullManager.connections.find? (fun e => e.1 == "conn0")).isSome = true
    ∧ (fullManager.Connect unitLib demoEnv "conn0" "h" 22 "u" "pw" "").result
        = .error .limitReached
    ∧ ConnectErr.limitReached ≠ ConnectErr.duplicateId :=
  ⟨rfl, rfl, by decide⟩

/-- C1 amended. With the registry strictly below capacity, an open on a
registered id fails with the duplicate-id error before dialing; at or
above capacity it fails with the limit error instead; in either case
the registry (and so every existing session) is left unchanged. -/
theorem connect_duplicate_id_amended {P : Type} (lib : GlobLib P)
    (m : Manager P) (env : ConnectEnv) (id host : String) (port : Int)
    (username password privateKeyPath : String)
    (hdup : (m.connections.find? (fun e => e.1 == id)).isSome = true) :
    (m.connections.length < MaxConnections →
      m.Connect lib env id host port username password privateKeyPath =
        { result := .error .duplicateId, dialAttempted := false })
    ∧ (m.connections.length ≥ MaxConnections →
      m.Connect lib env id host port username password privateKeyPath =
        { result := .error .limitReached, dialAttempted := false })
    ∧ stepPool lib m
        (.connect env id host port username password privateKeyPath) = m := by
  by_cases hc : m.connections.length ≥ MaxConnections
  · have hcon := connect_limit lib m env id host port username password
      privateKeyPath hc
    refine ⟨fun hlt => absurd hc (by omega), fun _ => hcon, ?_⟩
    exact stepPool_connect_error lib m env id host port username password
      privateKeyPath _ (by rw [hcon])
  · have hcon := connect_dup lib m env id host port username password
      privateKeyPath hc hdup
    refine ⟨fun _ => hcon, fun hge => absurd hge hc, ?_⟩
    exact stepPool_connect_error lib m env id host port username password
      privateKeyPath _ (by rw [hcon])

/-- C1 amended witness: a one-entry registry below capacity rejects a
colliding open with the duplicate-id error and keeps its state. -/
theorem connect_duplicate_id_amended_witness :
    demoManager.Connect unitLib demoEnv "a" "h2" 22 "u" "pw" "" =
      { result := .error .duplicateId, dialAttempted := false }
    ∧ stepPool unitLib demoManager
        (.connect demoEnv "a" "h2" 22 "u" "pw" "") = demoManager :=
  ⟨(connect_duplicate_id_amended unitLib demoManager demoEnv "a" "h2" 22 "u"
      "pw" "" rfl).1 (by decide),
   (connect_duplicate_id_amended unitLib demoManager demoEnv "a" "h2" 22 "u"
      "pw" "" rfl).2.2⟩

/-! ## C6: the registry never exceeds MaxConnections -/

/-- A successful Connect grew the registry by exactly one entry and can
only have happened strictly below the limit. -/
theorem connect_ok_length {P : Type} (lib : GlobLib P) (m m2 : Manager P)
    (env : ConnectEnv) (id host : String) (port : Int)
    (username password privateKeyPath : String)
    (h : (m.Connect lib env id host port username password
            privateKeyPath).result = .ok m2) :
    m2.connections.length = m.connections.length + 1 ∧
    m.connections.length < MaxConnections := by
  unfold Manager.Connect at h
  by_cases hc : m.connections.length ≥ MaxConnections
  · rw [if_pos hc] at h
    exact absurd h (by simp)
  · rw [if_neg hc] at h
    have hlt : m.connections.length < MaxConnections := by omega
    refine ⟨?_, hlt⟩
    split at h
    · exact absurd h (by simp)
    · split at h
      · exact absurd h (by simp)
      · split at h
        · exact absurd h (by simp)
        · split at h
          · exact absurd h (by simp)
          · split at h
            · exact absurd h (by simp)
            · split at h
              · exact absurd h (by simp)
              · simp only [Except.ok.injEq] at h
                subst h
                simp

/-- A successful Close shrank the registry to a filtered sublist. -/
theorem close_ok_connections {P : Type} (m m2 : Manager P) (id : String)
    (h : m.Close id = .ok m2) :
    m2.connections = m.connections.filter (fun e => e.1 != id) := by
  unfold Manager.Close at h
  split at h
  · exact absurd h (by simp)
  · simp only [Except.ok.injEq] at h
    subst h
    rfl

/-- Each pool operation preserves the capacity bound. -/
theorem stepPool_preserves_cap {P : Type} (lib : GlobLib P) (m : Manager P)
    (op : PoolOp) (h : m.connections.length ≤ MaxConnections) :
    (stepPool lib m op).connections.length ≤ MaxConnections := by
  cases op with
  | connect env id host port u pw kp =>
    simp only [stepPool]
    cases hr : (m.Connect lib env id host port u pw kp).result with
    | ok m2 =>
      have hg := connect_ok_length lib m m2 env id host port u pw kp hr
      show m2.connections.length ≤ MaxConnections
      omega
    | error e => exact h
  | close id =>
    simp only [stepPool]
    cases hr : m.Close id with
    | ok m2 =>
      have hf := close_ok_connections m m2 id hr
      have hle : m2.connections.length ≤ m.connections.length := by
        rw [hf]; exact List.length_filter_le _ _
      show m2.connections.length ≤ MaxConnections
      omega
    | error e => exact h
  | closeAll => simp [stepPool, Manager.CloseAll]
  | execute id cmd => exact h
  | list => exact h

/-- Folding pool operations from any state within the bound stays within
the bound. -/
theorem foldl_preserves_cap {P : Type} (lib : GlobLib P) :
    ∀ (ops : List PoolOp) (m : Manager P),
      m.connections.length ≤ MaxConnections →
      (ops.foldl (stepPool lib) m).connections.length ≤ MaxConnections := by
  intro ops
  induction ops with
  | nil => intro m h; exact h
  | cons op rest ih =>
    intro m h
    exact ih _ (stepPool_preserves_cap lib m op h)

/-- C6. In every state reachable from a fresh manager the registry holds
at most MaxConnections entries, and any open issued while the registry
is at the maximum fails with the limit error and leaves the registry
unchanged. -/
theorem registry_capacity_invariant {P : Type} (lib : GlobLib P)
    (v : HostValidator P) :
    (∀ ops : List PoolOp,
      (runPool lib v ops).connections.length ≤ MaxConnections)
    ∧ (∀ (m : Manager P) (env : ConnectEnv) (id host : String) (port : Int)
        (username password privateKeyPath : String),
        m.connections.length = MaxConnections →
        m.Connect lib env id host port username password privateKeyPath =
          { result := .error .limitReached, dialAttempted := false }
        ∧ stepPool lib m
            (.connect env id host port username password privateKeyPath)
          = m) := by
  constructor
  · intro ops
    exact foldl_preserves_cap lib ops (NewManager v) (by simp [NewManager])
  · intro m env id host port username password privateKeyPath hfull
    have hcon := connect_limit lib m env id host port username password
      privateKeyPath (by omega)
    exact ⟨hcon, stepPool_connect_error lib m env id host port username
      password privateKeyPath _ (by rw [hcon])⟩

/-- C6 witness: a concrete operation sequence stays within the bound,
and the concrete at-capacity manager rejects a fresh open with the
limit error. -/
theorem registry_capacity_invariant_witness :
    (runPool unitLib unitValidator
        [PoolOp.connect demoEnv "a" "h" 22 "u" "pw" "",
         PoolOp.close "a"]).connections.length ≤ MaxConnections
    ∧ fullManager.Connect unitLib demoEnv "fresh" "h" 22 "u" "pw" "" =
        { result := .error .limitReached, dialAttempted := false } :=
  ⟨(registry_capacity_invariant unitLib unitValidator).1 _,
   ((registry_capacity_invariant unitLib unitValidator).2 fullManager demoEnv
      "fresh" "h" 22 "u" "pw" "" (by decide)).1⟩

/-! ## C9: Close semantics -/

/-- No entry with the closed id survives the removal filter. -/
theorem find?_filter_ne_none (l : List (String × Connection)) (id : String) :
    (l.filter (fun e => e.1 != id)).find? (fun e => e.1 == id) = none := by
  rw [List.find?_eq_none]
  intro x hx hbeq
  have hne : (x.1 != id) = true := (List.mem_filter.mp hx).2
  rw [bne_iff_ne] at hne
  exact hne (by simpa using hbeq)

/-- C9. Close on an unregistered id fails with the not-found error and
leaves the registry unchanged; Close on a registered id succeeds —
whatever the stored executor's and client's teardown outcomes are —
and its entry is removed while everything else survives. -/
theorem close_semantics {P : Type} (lib : GlobLib P) (m : Manager P)
    (id : String) :
    (m.lookup id = none →
      m.Close id = .error ("connection " ++ id ++ " not found")
      ∧ stepPool lib m (.close id) = m)
    ∧ (∀ c, m.lookup id = some c →
      ∃ m2, m.Close id = .ok m2
        ∧ m2.connections = m.connections.filter (fun e => e.1 != id)
        ∧ m2.lookup id = none
        ∧ m2.validator = m.validator) := by
  unfold Manager.lookup Manager.Close
  cases hf : m.connections.find? (fun e => e.1 == id) with
  | none =>
    refine ⟨fun _ => ⟨rfl, ?_⟩, fun c hc => by simp at hc⟩
    simp only [stepPool, Manager.Close, hf]
  | some entry =>
    refine ⟨fun hnone => by simp at hnone, fun c hc => ?_⟩
    refine ⟨_, rfl, rfl, ?_, rfl⟩
    simp [find?_filter_ne_none m.connections id]

/-- C9 witness: closing the known id of a connection whose executor and
client both fail to close still succeeds and removes the entry;
closing an unknown id fails with the not-found error and changes
nothing. -/
theorem close_semantics_witness :
    (∃ m2, demoManager.Close "a" = .ok m2
      ∧ m2.connections = demoManager.connections.filter (fun e => e.1 != "a")
      ∧ m2.lookup "a" = none
      ∧ m2.validator = demoManager.validator)
    ∧ demoManager.Close "zzz" = .error ("connection " ++ "zzz" ++ " not found")
    ∧ stepPool unitLib demoManager (.close "zzz") = demoManager :=
  ⟨(close_semantics unitLib demoManager "a").2 demoConn rfl,
   ((close_semantics unitLib demoManager "zzz").1 rfl).1,
   ((close_semantics unitLib demoManager "zzz").1 rfl).2⟩

/-! ## C8: authentication-method validation, corrected -/

/-- C8 counterexample: a request supplying both a password and a key
path passes the handler validation, and the manager accepts it: both
methods are configured, the dial happens, and the open succeeds. -/
theorem auth_both_accepted_cex :
    validateAuthMethod "pw" "/key" = .ok ()
    ∧ ((NewManager unitValidator).Connect unitLib demoEnv "c1" "h" 22 "u"
        "pw" "/key").dialAttempted = true
    ∧ ∃ m2, ((NewManager unitValidator).Connect unitLib demoEnv "c1" "h" 22
        "u" "pw" "/key").result = .ok m2 :=
  ⟨rfl, rfl, ⟨_, rfl⟩⟩

/-- C8 amended. At least one — not exactly one — of password and key
path must be supplied: the handler validation fails precisely when
both are absent; an open supplying neither is rejected before any
dial; and an open supplying both is not rejected — both
authentication methods are configured and, when the environment
cooperates, the open succeeds after dialing. -/
theorem auth_method_amended {P : Type} (lib : GlobLib P) (m : Manager P)
    (env : ConnectEnv) (id host : String) (port : Int) (username : String) :
    (∀ password privateKeyPath,
      (∃ e, validateAuthMethod password privateKeyPath = .error e) ↔
        password = "" ∧ privateKeyPath = "")
    ∧ ((m.Connect lib env id host port username "" "").dialAttempted = false
      ∧ ∃ e, (m.Connect lib env id host port username "" "").result =
          .error e)
    ∧ (∀ password privateKeyPath keyData cb eb,
        password ≠ "" → privateKeyPath ≠ "" →
        m.connections.length < MaxConnections →
        (m.connections.find? (fun e => e.1 == id)).isSome = false →
        m.validator.Validate lib host = .ok () →
        env.readKeyFile privateKeyPath = .ok keyData →
        env.parsePrivateKey keyData = .ok () →
        env.dial = .ok cb → env.newExecutor = .ok eb →
        ∃ m2, m.Connect lib env id host port username password
            privateKeyPath = { result := .ok m2, dialAttempted := true }) := by
  refine ⟨?_, ?_, ?_⟩
  · intro password privateKeyPath
    unfold validateAuthMethod
    constructor
    · intro ⟨e, he⟩
      by_cases hb : password = "" ∧ privateKeyPath = ""
      · exact hb
      · rw [if_neg hb] at he
        exact absurd he (by simp)
    · intro hb
      rw [if_pos hb]
      exact ⟨_, rfl⟩
  · by_cases hc : m.connections.length ≥ MaxConnections
    · rw [connect_limit lib m env id host port username "" "" hc]
      exact ⟨rfl, ⟨_, rfl⟩⟩
    · by_cases hd : (m.connections.find? (fun e => e.1 == id)).isSome = true
      · rw [connect_dup lib m env id host port username "" "" hc hd]
        exact ⟨rfl, ⟨_, rfl⟩⟩
      · cases hv : m.validator.Validate lib host with
        | error msg =>
          have hcon : m.Connect lib env id host port username "" "" =
              { result := .error (.hostDenied msg), dialAttempted := false } := by
            unfold Manager.Connect
            rw [if_neg hc, if_neg hd, hv]
          rw [hcon]
          exact ⟨rfl, ⟨_, rfl⟩⟩
        | ok u =>
          have hcon : m.Connect lib env id host port username "" "" =
              { result := .error .noAuth, dialAttempted := false } := by
            unfold Manager.Connect
            rw [if_neg hc, if_neg hd, hv]
            rfl
          rw [hcon]
          exact ⟨rfl, ⟨_, rfl⟩⟩
  · intro password privateKeyPath keyData cb eb hpw hkp hlt hd hv hread
      hparse hdial hexec
    have hauth : buildAuth env password privateKeyPath = .ok 2 := by
      unfold buildAuth
      rw [if_pos hpw, if_pos hkp, hread]
      simp [hparse]
    refine ⟨{ m with connections := m.connections ++
        [(id, { Info := { ID := id, Host := host, Port := port,
                          Username := username, Created := env.now },
                executorCloseOk := eb, clientCloseOk := cb })] }, ?_⟩
    unfold Manager.Connect
    rw [if_neg (by omega), if_neg (by simp [hd]), hv]
    simp [hauth, hdial, hexec]

/-- C8 amended witness: the fresh manager rejects a no-credential open
without dialing, and accepts a password-plus-key open under the
cooperative environment. -/
theorem auth_method_amended_witness :
    ((∃ e, validateAuthMethod "" "" = .error e) ↔ ("" : String) = "" ∧
        ("" : String) = "")
    ∧ ((NewManager unitValidator).Connect unitLib demoEnv "c1" "h" 22 "u"
        "" "").dialAttempted = false
    ∧ ∃ m2, (NewManager unitValidator).Connect unitLib demoEnv "c1" "h" 22
        "u" "pw" "/key" = { result := .ok m2, dialAttempted := true } :=
  ⟨(auth_method_amended unitLib (NewManager unitValidator) demoEnv "c1" "h"
      22 "u").1 "" "",
   (auth_method_amended unitLib (NewManager unitValidator) demoEnv "c1" "h"
      22 "u").2.1.1,
   (auth_method_amended unitLib (NewManager unitValidator) demoEnv "c1" "h"
      22 "u").2.2 "pw" "/key" "keydata" true true (by decide) (by decide)
     (by decide) (by decide) rfl rfl rfl rfl rfl⟩

/-! ## C4: allowlist construction and checking -/

/-- The segments of a specification that survive trimming: trim each
comma-split segment and drop those that trim to empty. -/
def survivorsOf (hs : List String) : List String :=
  (hs.map goTrim).filter (fun t => t != "")

/-- The surviving segments of a comma-separated specification string. -/
def survivors (spec : String) : List String :=
  survivorsOf (goSplit spec ',')

/-- Compilation of an already-trimmed, already-filtered segment list,
failing on the first segment the library rejects. -/
def compileList {P : Type} (lib : GlobLib P) :
    List String → Except String (List P)
  | [] => .ok []
  | t :: ts =>
    match lib.compile t with
    | .error e => .error ("invalid host pattern: " ++ e)
    | .ok p => (compileList lib ts).map (fun ps => p :: ps)

/-- The construction loop equals compilation of the surviving
segments. -/
theorem compileHosts_eq {P : Type} (lib : GlobLib P) (hs : List String) :
    compileHosts lib hs = compileList lib (survivorsOf hs) := by
  induction hs with
  | nil => rfl
  | cons h rest ih =>
    by_cases ht : goTrim h = ""
    · simp [compileHosts, survivorsOf, ht, ih]
    · cases hc : lib.compile (goTrim h) with
      | error e =>
        simp [compileHosts, survivorsOf, compileList, bne_iff_ne, ht, hc]
      | ok p =>
        simp [compileHosts, survivorsOf, compileList, bne_iff_ne, ht, hc, ih]

/-- Compilation of a segment list fails exactly when some segment fails
to compile. -/
theorem compileList_error_iff {P : Type} (lib : GlobLib P)
    (ts : List String) :
    (∃ e, compileList lib ts = .error e) ↔
      ∃ t ∈ ts, ∃ e, lib.compile t = .error e := by
  induction ts with
  | nil => simp [compileList]
  | cons t ts2 ih =>
    cases hc : lib.compile t with
    | error e => simp [compileList, hc]
    | ok p =>
      simp only [compileList, hc]
      constructor
      · intro ⟨e2, he2⟩
        cases hr : compileList lib ts2 with
        | error e3 =>
          rcases ih.mp ⟨e3, hr⟩ with ⟨u, hu, e4, he4⟩
          exact ⟨u, List.mem_cons_of_mem _ hu, e4, he4⟩
        | ok ps =>
          rw [hr] at he2
          exact absurd he2 (by simp [Except.map])
      · intro ⟨u, hu, e2, he2⟩
        rcases List.mem_cons.mp hu with h | h
        · subst h
          rw [hc] at he2
          exact absurd he2 (by simp)
        · rcases ih.mpr ⟨u, h, e2, he2⟩ with ⟨e3, he3⟩
          exact ⟨e3, by rw [he3]; rfl⟩

/-- Successful compilation yields an empty pattern list exactly for an
empty segment list. -/
theorem compileList_ok_empty {P : Type} (lib : GlobLib P)
    (ts : List String) (ps : List P) (h : compileList lib ts = .ok ps) :
    (ps.isEmpty = true ↔ ts = []) := by
  cases ts with
  | nil =>
    simp only [compileList, Except.ok.injEq] at h
    subst h
    simp
  | cons t ts2 =>
    simp only [compileList] at h
    cases hc : lib.compile t with
    | error e =>
      rw [hc] at h
      exact absurd h (by simp)
    | ok p =>
      rw [hc] at h
      cases hr : compileList lib ts2 with
      | error e =>
        rw [hr] at h
        exact absurd h (by simp [Except.map])
      | ok ps2 =>
        rw [hr] at h
        simp only [Except.map, Except.ok.injEq] at h
        subst h
        simp

/-- The validation loop accepts exactly the hosts matched by some
pattern in the list. -/
theorem validateLoop_ok_iff {P : Type} (lib : GlobLib P) (host : String)
    (ps : List P) :
    validateLoop lib host ps = .ok () ↔
      ∃ p ∈ ps, lib.matchPat p host = true := by
  induction ps with
  | nil => simp [validateLoop]
  | cons p rest ih =>
    by_cases hm : lib.matchPat p host = true
    · simp [validateLoop, hm]
    · simp [validateLoop, hm, ih]

/-- C4. Construction fails exactly when the specification is empty, when
no segment survives comma-splitting and trimming, or when some
surviving segment fails to compile; and checking a host against a
successfully constructed allowlist succeeds exactly when the host is
non-empty and at least one compiled pattern matches it (a pure,
order-independent disjunction). Proved for every glob library. -/
theorem hostValidator_spec {P : Type} (lib : GlobLib P) (spec : String) :
    ((∃ e, NewHostValidator lib spec = .error e) ↔
      (spec = "" ∨ survivors spec = [] ∨
        ∃ t ∈ survivors spec, ∃ e, lib.compile t = .error e))
    ∧ (∀ v, NewHostValidator lib spec = .ok v → ∀ host,
      (v.Validate lib host = .ok () ↔
        (host ≠ "" ∧ ∃ p ∈ v.patterns, lib.matchPat p host = true))) := by
  have hch : compileHosts lib (goSplit spec ',') =
      compileList lib (survivors spec) := compileHosts_eq lib _
  constructor
  · by_cases hspec : spec = ""
    · simp [NewHostValidator, hspec]
    · cases hcl : compileList lib (survivors spec) with
      | error e =>
        have hne : NewHostValidator lib spec = .error e := by
          unfold NewHostValidator
          rw [if_neg hspec, hch, hcl]
        constructor
        · intro _
          exact Or.inr (Or.inr ((compileList_error_iff lib _).mp ⟨e, hcl⟩))
        · intro _
          exact ⟨e, hne⟩
      | ok ps =>
        by_cases hps : ps.isEmpty = true
        · have hsurv : survivors spec = [] :=
            (compileList_ok_empty lib _ ps hcl).mp hps
          have hne : NewHostValidator lib spec =
              .error "no valid host patterns provided" := by
            unfold NewHostValidator
            rw [if_neg hspec, hch, hcl]
            simp [hps]
          simp [hne, hsurv]
        · have hok : NewHostValidator lib spec = .ok { patterns := ps } := by
            unfold NewHostValidator
            rw [if_neg hspec, hch, hcl]
            simp [hps]
          constructor
          · intro ⟨e, he⟩
            rw [hok] at he
            exact absurd he (by simp)
          · rintro (h | h | h)
            · exact absurd h hspec
            · exact absurd ((compileList_ok_empty lib _ ps hcl).mpr h) hps
            · rcases (compileList_error_iff lib _).mpr h with ⟨e, he⟩
              rw [hcl] at he
              exact absurd he (by simp)
  · intro v hv host
    unfold HostValidator.Validate
    by_cases hh : host = ""
    · simp [hh]
    · rw [if_neg hh]
      simp [validateLoop_ok_iff, hh]

/-- A small concrete glob library over String patterns: a lone opening
bracket fails to compile (as in gobwas/glob), matching is equality. -/
def strGlobLib : GlobLib String :=
  { compile := fun s =>
      if s = "[" then .error "unexpected end of input" else .ok s,
    matchPat := fun p h => p == h }

/-- C4 witness: the spec "a, ,b" constructs the two-pattern validator,
whose check of the host "a" is characterized by the theorem; and the
construction-failure characterization instantiated at the same
spec. -/
theorem hostValidator_spec_witness :
    ((∃ e, NewHostValidator strGlobLib "a, ,b" = .error e) ↔
      (("a, ,b" : String) = "" ∨ survivors "a, ,b" = [] ∨
        ∃ t ∈ survivors "a, ,b", ∃ e, strGlobLib.compile t = .error e))
    ∧ (HostValidator.Validate strGlobLib { patterns := ["a", "b"] } "a" =
        .ok () ↔
      (("a" : String) ≠ "" ∧
        ∃ p ∈ ({ patterns := ["a", "b"] } : HostValidator String).patterns,
          strGlobLib.matchPat p "a" = true)) :=
  ⟨(hostValidator_spec strGlobLib "a, ,b").1,
   (hostValidator_spec strGlobLib "a, ,b").2 { patterns := ["a", "b"] }
     rfl "a"⟩

end McpSsh
